import Mathlib

/-!
Verification of the entitlement-state resolution and trust-caching subsystem of the
getkeymanager JavaScript SDK.

JavaScript values that flow through the subsystem are modelled by a `Json` inductive.
Absent object fields and JS `undefined` are both modelled as `Json.null`: every check the
embedded code performs on such values (truthiness, `=== true`, `=== false`) evaluates the
same way on `undefined` and `null`.  Numbers are modelled as integers (all timestamps the
code manipulates are epoch seconds; no claim depends on fractional values).  Cryptographic
primitives (RSA verification, SHA-256) are modelled as abstract functions carried by the
configuration, exactly as the code treats them (opaque calls returning a boolean / a hex
string).
-/

/-- JSON / JavaScript value model. -/
inductive Json where
  | null : Json
  | bool (b : Bool) : Json
  | num (n : Int) : Json
  | str (s : String) : Json
  | arr (elems : List Json) : Json
  | obj (fields : List (String × Json)) : Json

/-- JS truthiness: `null`/`undefined`, `false`, `0` and `""` are falsy; every object and
array is truthy. -/
def Json.truthy : Json → Bool
  | .null => false
  | .bool b => b
  | .num n => decide (n ≠ 0)
  | .str s => !s.data.isEmpty
  | .arr _ => true
  | .obj _ => true

/-- Property read `o[k]`: first binding of the key of an object, `null` (i.e. JS
`undefined`) otherwise.  JS objects never hold duplicate keys, so first-binding lookup
agrees with JS semantics on every representable object. -/
def Json.field (j : Json) (k : String) : Json :=
  match j with
  | .obj l =>
    match l.find? (fun p => decide (p.1 = k)) with
    | some p => p.2
    | none => .null
  | _ => .null

/-- Is the key present on the object (JS `x.k !== undefined` for fields never set to
`undefined` explicitly)? -/
def Json.hasField (j : Json) (k : String) : Bool :=
  match j with
  | .obj l => l.any (fun p => decide (p.1 = k))
  | _ => false

/-- Set a field on an assoc list: overwrite the first binding in place, else append —
the key order produced by JS property assignment. -/
def setPairs (l : List (String × Json)) (k : String) (v : Json) : List (String × Json) :=
  match l with
  | [] => [(k, v)]
  | p :: rest =>
    if p.1 = k then (k, v) :: rest else p :: setPairs rest k v

/-- JS property assignment `o[k] = v` (no-op on non-objects; the code only assigns to
objects). -/
def Json.objSet (j : Json) (k : String) (v : Json) : Json :=
  match j with
  | .obj l => .obj (setPairs l k v)
  | _ => j

/-- JS `delete o[k]` combined with an object spread: drops the key, keeps the order of the
remaining fields. -/
def Json.delete (j : Json) (k : String) : Json :=
  match j with
  | .obj l => .obj (l.filter (fun p => decide (p.1 ≠ k)))
  | _ => j

/-- Numeric coercion used where the code compares payload fields numerically (the code
only ever reaches these comparisons with numbers; other values are mapped to 0). -/
def Json.toNum : Json → Int
  | .num n => n
  | _ => 0

/-- String coercion used where the code calls string methods on a field (the code only
ever reaches these calls with strings). -/
def Json.toStr : Json → String
  | .str s => s
  | _ => ""

/-- Strict equality test `x === true`. -/
def Json.isTrue : Json → Bool
  | .bool true => true
  | _ => false

/-- Strict equality test `x === false`. -/
def Json.isFalse : Json → Bool
  | .bool false => true
  | _ => false

/-- `value && typeof value === 'object'`: truthy and of object type (arrays included). -/
def Json.isObjLike : Json → Bool
  | .obj _ => true
  | .arr _ => true
  | _ => false

/-- `x || fallback` for the common `payload.f || null` pattern. -/
def Json.orNull (j : Json) : Json :=
  if j.truthy then j else .null

/-- `x || fallback` with an arbitrary fallback. -/
def Json.orElse (j fallback : Json) : Json :=
  if j.truthy then j else fallback

/-- JSON string escaping as performed by `JSON.stringify` (quote, backslash and the
common control characters; other control characters do not occur in any value this
development evaluates). -/
def escapeChar (c : Char) : String :=
  if c = '"' then "\\\""
  else if c = '\\' then "\\\\"
  else if c = '\n' then "\\n"
  else if c = '\t' then "\\t"
  else if c = '\r' then "\\r"
  else String.singleton c

def quoteStr (s : String) : String :=
  "\"" ++ String.join (s.toList.map escapeChar) ++ "\""

mutual
/-- `JSON.stringify(value)`: no whitespace, fields in the object's own key order. -/
def stringifyJ : Json → String
  | .null => "null"
  | .bool true => "true"
  | .bool false => "false"
  | .num n => toString n
  | .str s => quoteStr s
  | .arr l => "[" ++ stringifyList l ++ "]"
  | .obj l => "\x7b" ++ stringifyPairs l ++ "\x7d"

def stringifyList : List Json → String
  | [] => ""
  | [x] => stringifyJ x
  | x :: y :: rest => stringifyJ x ++ "," ++ stringifyList (y :: rest)

def stringifyPairs : List (String × Json) → String
  | [] => ""
  | [(k, v)] => quoteStr k ++ ":" ++ stringifyJ v
  | (k, v) :: q :: rest => quoteStr k ++ ":" ++ stringifyJ v ++ "," ++ stringifyPairs (q :: rest)
end

/-- Lexicographic comparison of character lists by code point — the order used by
JavaScript's default `Array.prototype.sort` on the (BMP) key strings of the objects this
subsystem serializes. -/
def charsLE : List Char → List Char → Bool
  | [], _ => true
  | _ :: _, [] => false
  | c :: cs, d :: ds =>
    if c.toNat < d.toNat then true
    else if d.toNat < c.toNat then false
    else charsLE cs ds

def strLE (a b : String) : Bool := charsLE a.data b.data

theorem charsLE_total (x y : List Char) : charsLE x y = true ∨ charsLE y x = true := by
  induction x generalizing y with
  | nil => exact .inl rfl
  | cons c cs ih =>
    cases y with
    | nil => exact .inr rfl
    | cons d ds =>
      by_cases h₁ : c.toNat < d.toNat
      · left; simp [charsLE, h₁]
      · by_cases h₂ : d.toNat < c.toNat
        · right; simp [charsLE, h₂]
        · rcases ih ds with h | h
          · left; simpa [charsLE, h₁, h₂] using h
          · right; simpa [charsLE, h₁, h₂] using h

theorem charsLE_trans {x y z : List Char} (h₁ : charsLE x y = true)
    (h₂ : charsLE y z = true) : charsLE x z = true := by
  induction x generalizing y z with
  | nil => rfl
  | cons c cs ih =>
    cases y with
    | nil => simp [charsLE] at h₁
    | cons d ds =>
      cases z with
      | nil => simp [charsLE] at h₂
      | cons e es =>
        simp only [charsLE] at h₁ h₂ ⊢
        split at h₁
        · split at h₂
          · have : c.toNat < e.toNat := by omega
            simp [this]
          · split at h₂
            · exact absurd h₂ (by simp)
            · have : c.toNat < e.toNat := by omega
              simp [this]
        · split at h₁
          · exact absurd h₁ (by simp)
          · split at h₂
            · have : c.toNat < e.toNat := by omega
              simp [this]
            · split at h₂
              · exact absurd h₂ (by simp)
              · have hce : ¬ c.toNat < e.toNat := by omega
                have hec : ¬ e.toNat < c.toNat := by omega
                simpa [hce, hec] using ih h₁ h₂

theorem charsLE_antisymm {x y : List Char} (h₁ : charsLE x y = true)
    (h₂ : charsLE y x = true) : x = y := by
  induction x generalizing y with
  | nil =>
    cases y with
    | nil => rfl
    | cons d ds => simp [charsLE] at h₂
  | cons c cs ih =>
    cases y with
    | nil => simp [charsLE] at h₁
    | cons d ds =>
      by_cases hcd : c.toNat < d.toNat
      · simp [charsLE, hcd, show ¬ d.toNat < c.toNat by omega] at h₂
      · by_cases hdc : d.toNat < c.toNat
        · simp [charsLE, hcd, hdc] at h₁
        · have hc : c = d := by
            have hn : c.toNat = d.toNat := by omega
            rw [← Char.ofNat_toNat c, ← Char.ofNat_toNat d, hn]
          subst hc
          simp only [charsLE, hcd, if_neg, lt_irrefl, if_false] at h₁ h₂
          rw [ih h₁ h₂]

theorem strLE_total (a b : String) : strLE a b = true ∨ strLE b a = true :=
  charsLE_total a.data b.data

theorem strLE_antisymm {a b : String} (h₁ : strLE a b = true) (h₂ : strLE b a = true) :
    a = b := by
  cases a; cases b
  exact congrArg String.mk (charsLE_antisymm h₁ h₂)

/-- Order in which `Object.keys(x).sort()` arranges the fields: by key. -/
def keyLE (p q : String × Json) : Prop := strLE p.1 q.1 = true

instance : DecidableRel keyLE := fun p q => inferInstanceAs (Decidable (strLE p.1 q.1 = true))

instance : IsTotal (String × Json) keyLE := ⟨fun p q => strLE_total p.1 q.1⟩

instance : IsTrans (String × Json) keyLE := ⟨fun _ _ _ h₁ h₂ => charsLE_trans h₁ h₂⟩

mutual
/-- `SignatureVerifier.sortKeysRecursive`: arrays are mapped element-wise (order
preserved), objects are rebuilt with their keys in sorted order, scalars returned
untouched.  The source sorts `Object.keys(data)` and rebuilds the object; on objects
(whose keys are distinct) that is exactly a sort of the field list by key. -/
def sortKeysRecursive : Json → Json
  | .null => .null
  | .bool b => .bool b
  | .num n => .num n
  | .str s => .str s
  | .arr l => .arr (sortJsonList l)
  | .obj l => .obj (List.insertionSort keyLE (sortJsonPairs l))

def sortJsonList : List Json → List Json
  | [] => []
  | x :: rest => sortKeysRecursive x :: sortJsonList rest

def sortJsonPairs : List (String × Json) → List (String × Json)
  | [] => []
  | (k, v) :: rest => (k, sortKeysRecursive v) :: sortJsonPairs rest
end

/-- `SignatureVerifier.canonicalizeJson`: recursively sort keys, serialize without
whitespace. -/
def canonicalizeJson (data : Json) : String :=
  stringifyJ (sortKeysRecursive data)

example : stringifyJ (.obj [("z", .num 1), ("a", .num 2)]) = "\x7b\"z\":1,\"a\":2\x7d" := rfl

example : canonicalizeJson (.obj [("z", .num 1), ("a", .num 2)]) = "\x7b\"a\":2,\"z\":1\x7d" := rfl

mutual
/-- Every object reachable inside the value has pairwise-distinct keys.  True of every
value a JavaScript object graph can denote (JS objects cannot hold duplicate keys); a
side condition of the list model only. -/
def nkJ : Json → Bool
  | .null => true
  | .bool _ => true
  | .num _ => true
  | .str _ => true
  | .arr l => nkList l
  | .obj l => decide ((l.map Prod.fst).Nodup) && nkPairs l

def nkList : List Json → Bool
  | [] => true
  | x :: rest => nkJ x && nkList rest

def nkPairs : List (String × Json) → Bool
  | [] => true
  | p :: rest => nkJ p.2 && nkPairs rest
end

/-- Two key/value bindings with the same key and related values. -/
inductive PairEq (R : Json → Json → Prop) : String × Json → String × Json → Prop where
  | mk (k : String) (v w : Json) : R v w → PairEq R (k, v) (k, w)

/-- Structural equality of JSON values up to the ordering of object keys, at any nesting
depth.  Array elements are matched positionally (order preserved). -/
inductive JEquiv : Json → Json → Prop where
  | null : JEquiv .null .null
  | bool (b : Bool) : JEquiv (.bool b) (.bool b)
  | num (n : Int) : JEquiv (.num n) (.num n)
  | str (s : String) : JEquiv (.str s) (.str s)
  | arr {xs ys : List Json} : List.Forall₂ JEquiv xs ys → JEquiv (.arr xs) (.arr ys)
  | obj {l₁ l₃ l₂ : List (String × Json)} : l₁.Perm l₃ →
      List.Forall₂ (PairEq JEquiv) l₃ l₂ → JEquiv (.obj l₁) (.obj l₂)

theorem one_le_sizeOf_json (a : Json) : 1 ≤ sizeOf a := by
  cases a <;> simp

theorem sortJsonPairs_eq_map (l : List (String × Json)) :
    sortJsonPairs l = l.map (fun p => (p.1, sortKeysRecursive p.2)) := by
  induction l with
  | nil => rfl
  | cons p rest ih => cases p; simp [sortJsonPairs, ih]

theorem nkList_mem {l : List Json} (h : nkList l = true) {x : Json} (hx : x ∈ l) :
    nkJ x = true := by
  induction l with
  | nil => cases hx
  | cons y rest ih =>
    simp only [nkList, Bool.and_eq_true] at h
    rcases List.mem_cons.mp hx with rfl | hx'
    · exact h.1
    · exact ih h.2 hx'

theorem nkPairs_mem {l : List (String × Json)} (h : nkPairs l = true)
    {p : String × Json} (hp : p ∈ l) : nkJ p.2 = true := by
  induction l with
  | nil => cases hp
  | cons q rest ih =>
    simp only [nkPairs, Bool.and_eq_true] at h
    rcases List.mem_cons.mp hp with rfl | hp'
    · exact h.1
    · exact ih h.2 hp'

/-- The strict key order: used only to conclude that two sorted, key-distinct permutations
coincide. -/
def keyLT (p q : String × Json) : Prop := keyLE p q ∧ p.1 ≠ q.1

instance : IsAntisymm (String × Json) keyLT :=
  ⟨fun _ _ h₁ h₂ => absurd (strLE_antisymm h₁.1 h₂.1) h₁.2⟩

theorem sorted_keyLT {l : List (String × Json)} (hs : l.Sorted keyLE)
    (hnd : (l.map Prod.fst).Nodup) : l.Sorted keyLT := by
  have hne : l.Pairwise (fun p q : String × Json => p.1 ≠ q.1) :=
    List.pairwise_map.mp hnd
  exact (hs.and hne).imp (fun h => h)

theorem insertionSort_eq_of_perm {m₁ m₂ : List (String × Json)} (hp : m₁.Perm m₂)
    (hnd : (m₁.map Prod.fst).Nodup) :
    List.insertionSort keyLE m₁ = List.insertionSort keyLE m₂ := by
  have hp' : (List.insertionSort keyLE m₁).Perm (List.insertionSort keyLE m₂) :=
    (List.perm_insertionSort keyLE m₁).trans (hp.trans (List.perm_insertionSort keyLE m₂).symm)
  have hnd₁ : ((List.insertionSort keyLE m₁).map Prod.fst).Nodup :=
    (((List.perm_insertionSort keyLE m₁).map Prod.fst).nodup_iff).mpr hnd
  have hnd₂ : ((List.insertionSort keyLE m₂).map Prod.fst).Nodup :=
    ((hp'.map Prod.fst).nodup_iff).mp hnd₁
  exact List.eq_of_perm_of_sorted hp'
    (sorted_keyLT (List.sorted_insertionSort keyLE m₁) hnd₁)
    (sorted_keyLT (List.sorted_insertionSort keyLE m₂) hnd₂)

theorem sortKeysRecursive_eq_of_equiv :
    ∀ (n : Nat) (a b : Json), sizeOf a ≤ n → JEquiv a b → nkJ a = true →
      sortKeysRecursive a = sortKeysRecursive b := by
  intro n
  induction n with
  | zero =>
    intro a _ hsz _ _
    exact absurd (one_le_sizeOf_json a) (by omega)
  | succ n ih =>
    intro a b hsz heq hnk
    cases heq with
    | null => rfl
    | bool b => rfl
    | num m => rfl
    | str s => rfl
    | arr hf =>
      rename_i xs ys
      have hbound : ∀ x ∈ xs, sizeOf x ≤ n := by
        intro x hx
        have h₁ := List.sizeOf_lt_of_mem hx
        have h₂ : sizeOf (Json.arr xs) = 1 + sizeOf xs := by simp
        omega
      have hnk' : ∀ x ∈ xs, nkJ x = true := fun x hx =>
        nkList_mem (by simpa [nkJ] using hnk) hx
      have hlist : ∀ (u v : List Json), List.Forall₂ JEquiv u v →
          (∀ x ∈ u, sizeOf x ≤ n) → (∀ x ∈ u, nkJ x = true) →
          sortJsonList u = sortJsonList v := by
        intro u v hf hb hn
        induction hf with
        | nil => rfl
        | cons hxy htail ihtail =>
          rename_i x y u' v'
          simp only [sortJsonList]
          rw [ih x y (hb x (by simp)) hxy (hn x (by simp)),
            ihtail (fun z hz => hb z (by simp [hz])) (fun z hz => hn z (by simp [hz]))]
      simp only [sortKeysRecursive]
      rw [hlist xs ys hf hbound hnk']
    | obj hperm hf =>
      rename_i l₁ l₃ l₂
      have hnd : (l₁.map Prod.fst).Nodup := by
        have := hnk
        simp only [nkJ, Bool.and_eq_true, decide_eq_true_eq] at this
        exact this.1
      have hnp : nkPairs l₁ = true := by
        have := hnk
        simp only [nkJ, Bool.and_eq_true, decide_eq_true_eq] at this
        exact this.2
      have hbound : ∀ p ∈ l₃, sizeOf p.2 ≤ n := by
        intro p hp
        have hp₁ : p ∈ l₁ := hperm.mem_iff.mpr hp
        have h₁ := List.sizeOf_lt_of_mem hp₁
        have h₂ : sizeOf (Json.obj l₁) = 1 + sizeOf l₁ := by simp
        have h₃ : sizeOf p = 1 + sizeOf p.1 + sizeOf p.2 := by cases p; simp
        omega
      have hnk' : ∀ p ∈ l₃, nkJ p.2 = true := fun p hp =>
        nkPairs_mem hnp (hperm.mem_iff.mpr hp)
      have hpairs : ∀ (u v : List (String × Json)), List.Forall₂ (PairEq JEquiv) u v →
          (∀ p ∈ u, sizeOf p.2 ≤ n) → (∀ p ∈ u, nkJ p.2 = true) →
          sortJsonPairs u = sortJsonPairs v := by
        intro u v hf hb hn
        induction hf with
        | nil => rfl
        | cons hxy htail ihtail =>
          rename_i x y u' v'
          cases hxy with
          | mk k vv ww hvw =>
            simp only [sortJsonPairs]
            rw [ih vv ww (hb (k, vv) (by simp)) hvw (hn (k, vv) (by simp)),
              ihtail (fun z hz => hb z (by simp [hz])) (fun z hz => hn z (by simp [hz]))]
      have h₃₂ : sortJsonPairs l₃ = sortJsonPairs l₂ := hpairs l₃ l₂ hf hbound hnk'
      have hperm' : (sortJsonPairs l₁).Perm (sortJsonPairs l₂) := by
        rw [sortJsonPairs_eq_map, ← h₃₂, sortJsonPairs_eq_map]
        exact hperm.map _
      have hnd' : ((sortJsonPairs l₁).map Prod.fst).Nodup := by
        rw [sortJsonPairs_eq_map, List.map_map]
        exact hnd
      simp only [sortKeysRecursive]
      rw [insertionSort_eq_of_perm hperm' hnd']

/-!
## The SDK model

Embedded from `entitlement-state.js`, `license-state.js`, the state resolver in
`examples.js` and the license validator.  Time is passed explicitly: every occurrence of
`Date.now() / 1000` in a function body becomes the function's `now` argument (each
embedded call is a single JS statement sequence; no claim distinguishes the instants
within one call).
-/

/-- The four entitlement states. -/
inductive EState where
  | ACTIVE
  | GRACE
  | RESTRICTED
  | INVALID
deriving DecidableEq

def EState.toJson : EState → Json
  | .ACTIVE => .str "ACTIVE"
  | .GRACE => .str "GRACE"
  | .RESTRICTED => .str "RESTRICTED"
  | .INVALID => .str "INVALID"

/-- The SDK error hierarchy (`exceptions` module; `*Error` and `*Exception` spellings in
the sources name the same classes).  `typeErr` models a plain JavaScript `TypeError`,
which is NOT part of the SDK's `LicenseError` hierarchy. -/
inductive SdkErr where
  | validationErr (msg : String)
  | signatureErr (msg : String)
  | networkErr (msg : String)
  | licenseErr (msg : String)
  | stateErr (msg : String)
  | typeErr (msg : String)
deriving DecidableEq

/-- `e instanceof LicenseError` (the base class of the SDK hierarchy). -/
def SdkErr.isLicenseError : SdkErr → Bool
  | .typeErr _ => false
  | _ => true

def SdkErr.isNetworkError : SdkErr → Bool
  | .networkErr _ => true
  | _ => false

def SdkErr.isSignatureError : SdkErr → Bool
  | .signatureErr _ => true
  | _ => false

def SdkErr.message : SdkErr → String
  | .validationErr m => m
  | .signatureErr m => m
  | .networkErr m => m
  | .licenseErr m => m
  | .stateErr m => m
  | .typeErr m => m

/-- `SignatureVerifier`: the RSA-SHA256 primitive is opaque to this subsystem — an
arbitrary boolean function of the data string and the base64 signature string. -/
structure Verifier where
  verify : String → String → Bool

/-- ASCII lowercasing — the effect of JS `String.prototype.toLowerCase()` on the ASCII
status strings this subsystem compares against (Unicode case mapping is out of scope;
no claim involves a non-ASCII status). -/
def lowerChar (c : Char) : Char :=
  if 65 <= c.toNat && c.toNat <= 90 then Char.ofNat (c.toNat + 32) else c

def lowerStr (s : String) : String := String.mk (s.data.map lowerChar)

/-- `EntitlementState.determineState`, branch 1: `payload.status` truthy and its
lowercasing one of revoked/suspended/cancelled. -/
def statusIsBlocked (p : Json) : Bool :=
  (p.field "status").truthy &&
    decide (lowerStr (p.field "status").toStr ∈ ["revoked", "suspended", "cancelled"])

/-- Branch 2 condition: `payload.valid_from` truthy and `now < payload.valid_from`. -/
def beforeValidFrom (now : Int) (p : Json) : Bool :=
  (p.field "valid_from").truthy && decide (now < (p.field "valid_from").toNum)

/-- Branch 3 condition: `payload.valid_until` truthy and `now > payload.valid_until`. -/
def afterValidUntil (now : Int) (p : Json) : Bool :=
  (p.field "valid_until").truthy && decide (now > (p.field "valid_until").toNum)

/-- `EntitlementState.determineState(payload)` with `now = Date.now() / 1000`. -/
def determineState (now : Int) (p : Json) : EState :=
  if statusIsBlocked p then .INVALID
  else if beforeValidFrom now p then .RESTRICTED
  else if afterValidUntil now p then
    if now - (p.field "valid_until").toNum < 7 * 86400 then .GRACE else .RESTRICTED
  else if (p.field "valid").isTrue then .ACTIVE
  else if (p.field "revalidation_failed").isTrue &&
      decide (now - (Json.orElse (p.field "last_verified_at") (.num 0)).toNum < 72 * 3600)
    then .GRACE
  else .ACTIVE

/-- `determineUpdateCapability`. -/
def determineUpdateCapability (p : Json) : Bool :=
  if (p.field "valid").isFalse then false
  else if (p.field "license").truthy && ((p.field "license").field "status").truthy &&
      decide (lowerStr ((p.field "license").field "status").toStr ∈ ["revoked", "suspended"])
    then false
  else true

/-- `determineTelemetryCapability`. -/
def determineTelemetryCapability (p : Json) : Bool :=
  if (p.field "features").truthy && (p.field "features").hasField "telemetry" then
    ((p.field "features").field "telemetry").truthy
  else true

/-- `determineDownloadCapability`. -/
def determineDownloadCapability (p : Json) : Bool :=
  if (p.field "license").truthy && ((p.field "license").field "status").truthy then
    decide (lowerStr ((p.field "license").field "status").toStr ∈
      ["active", "assigned", "available"])
  else (p.field "valid").isTrue

/-- `Object.assign(target, source)` for two JS objects. -/
def assignAll (target source : Json) : Json :=
  match source with
  | .obj l => l.foldl (fun acc p => acc.objSet p.1 p.2) target
  | _ => target

/-- `EntitlementState.extractCapabilities(payload)`. -/
def extractCapabilities (p : Json) : Json :=
  let c₀ : Json := .obj []
  let c₁ := if (p.field "features").truthy && (p.field "features").isObjLike then
      assignAll c₀ (p.field "features")
    else c₀
  let c₂ := if (p.field "license").truthy && ((p.field "license").field "features").truthy then
      assignAll c₁ ((p.field "license").field "features")
    else c₁
  let c₃ := c₂.objSet "updates" (.bool (determineUpdateCapability p))
  let c₄ := c₃.objSet "telemetry" (.bool (determineTelemetryCapability p))
  let c₅ := c₄.objSet "downloads" (.bool (determineDownloadCapability p))
  let c₆ := if (p.field "license").truthy && ((p.field "license").hasField "activations_limit")
    then c₅.objSet "max_activations" ((p.field "license").field "activations_limit")
    else c₅
  if (p.field "license").truthy && ((p.field "license").hasField "activations_count")
    then c₆.objSet "current_activations" ((p.field "license").field "activations_count")
    else c₆

/-- The `EntitlementState` instance fields set by the constructor. -/
structure EntitlementState where
  state : EState
  capabilities : Json
  validFrom : Json
  validUntil : Json
  contextBinding : Json
  productId : Json
  environment : Json
  metadata : Json
  signature : Json
  issuedAt : Json
  lastVerifiedAt : Int

/-- `new EntitlementState(payload, signature)` at instant `now = Date.now() / 1000`.
(`validatePayload` only rejects non-objects — `typeof payload !== 'object'` — and every
construction in this development passes an object.) -/
def EntitlementState.build (now : Int) (p : Json) (signature : Json) : EntitlementState :=
  { state := determineState now p
    capabilities := extractCapabilities p
    validFrom := (p.field "valid_from").orNull
    validUntil := (p.field "valid_until").orNull
    contextBinding := (p.field "context_binding").orNull
    productId := (p.field "product_id").orNull
    environment := (p.field "environment").orNull
    metadata := Json.orElse (p.field "metadata") (.obj [])
    signature := signature
    issuedAt := Json.orElse (p.field "issued_at") (.num now)
    lastVerifiedAt := now }

def EntitlementState.allowsOperation (s : EntitlementState) : Bool :=
  decide (s.state = .ACTIVE) || decide (s.state = .GRACE)

/-- `needsRevalidation(revalidationInterval = 86400)` evaluated at instant `now`. -/
def EntitlementState.needsRevalidation (s : EntitlementState) (now interval : Int) : Bool :=
  decide (now - s.lastVerifiedAt > interval)

def EntitlementState.hasCapability (s : EntitlementState) (c : String) : Bool :=
  (s.capabilities.field c).isTrue

/-- `toObject()`: the serialized cache-entry layout, in the literal key order of the
source. -/
def EntitlementState.toObject (s : EntitlementState) : Json :=
  .obj [("state", s.state.toJson), ("capabilities", s.capabilities),
    ("valid_from", s.validFrom), ("valid_until", s.validUntil),
    ("context_binding", s.contextBinding), ("product_id", s.productId),
    ("environment", s.environment), ("metadata", s.metadata),
    ("signature", s.signature), ("issued_at", s.issuedAt),
    ("last_verified_at", .num s.lastVerifiedAt)]

/-- `EntitlementState.fromCache(cachedData, verifier)` at instant `now`: requires a truthy
embedded signature, re-verifies `JSON.stringify` of the entry minus its `signature` field
when a verifier is configured, then reconstructs a fresh instance. -/
def EntitlementState.fromCache (now : Int) (cachedData : Json) (verifier : Option Verifier) :
    Except SdkErr EntitlementState :=
  if !(cachedData.field "signature").truthy then
    .error (.signatureErr "Cached state missing signature")
  else if (match verifier with
      | none => true
      | some v =>
        v.verify (stringifyJ (cachedData.delete "signature"))
          ((cachedData.field "signature").toStr)) then
    .ok (EntitlementState.build now cachedData (cachedData.field "signature"))
  else .error (.signatureErr "Cached state signature verification failed")

/-- Public wrapper `LicenseState`. -/
structure LicenseState where
  entitlementState : EntitlementState
  licenseKey : Json

/-- One `StateStore` map entry. -/
structure CachedEntry where
  state : Json
  expiresAt : Int

/-- `StateStore`: an in-process map plus the configured verifier and default TTL. -/
structure SStore where
  store : List (String × CachedEntry)
  verifier : Option Verifier
  defaultTtl : Int

def mapGet (l : List (String × CachedEntry)) (k : String) : Option CachedEntry :=
  match l.find? (fun p => decide (p.1 = k)) with
  | some p => some p.2
  | none => none

def mapSet (l : List (String × CachedEntry)) (k : String) (v : CachedEntry) :
    List (String × CachedEntry) :=
  match l with
  | [] => [(k, v)]
  | p :: rest => if p.1 = k then (k, v) :: rest else p :: mapSet rest k v

def mapDel (l : List (String × CachedEntry)) (k : String) : List (String × CachedEntry) :=
  l.filter (fun p => decide (p.1 ≠ k))

/-- `ttl = ttl || this.defaultTtl`: a falsy — absent or zero — `ttl` falls back to the
configured default. -/
def ttlValue (st : SStore) (ttl : Option Int) : Int :=
  match ttl with
  | some t => if t = 0 then st.defaultTtl else t
  | none => st.defaultTtl

/-- `StateStore.set(key, state, ttl)` at instant `now`. -/
def SStore.set (st : SStore) (key : String) (state : EntitlementState) (ttl : Option Int)
    (now : Int) : SStore :=
  { st with store := mapSet st.store key ⟨state.toObject, now + ttlValue st ttl⟩ }

/-- `StateStore.get(key)` at instant `now`: miss on absence, evict-and-miss on TTL expiry,
then reconstruct via `fromCache` — deleting the entry and propagating the failure if the
signature check fails. -/
def SStore.get (st : SStore) (key : String) (now : Int) :
    Except SdkErr (Option EntitlementState) × SStore :=
  match mapGet st.store key with
  | none => (.ok none, st)
  | some cached =>
    if cached.expiresAt < now then
      (.ok none, { st with store := mapDel st.store key })
    else
      match EntitlementState.fromCache now cached.state st.verifier with
      | .ok es => (.ok (some es), st)
      | .error e => (.error e, { st with store := mapDel st.store key })

/-- Stand-in for `new Date(x).getTime() / 1000` (milliseconds to epoch seconds for numeric
inputs; ISO-date-string parsing is outside this model and no claim depends on it). -/
def dateSeconds : Json → Json
  | .num n => .num (n / 1000)
  | _ => .num 0

/-- Stand-in for `crypto.createHash('sha256').update(s).digest('hex')`: an opaque
one-way function of the input string; no claim depends on its value. -/
def hashHex (s : String) : String := "(sha256)" ++ s

/-- `StateResolver` configuration. -/
structure SR where
  verifier : Option Verifier
  environment : Json
  productId : Json

/-- The byte string `StateResolver.verifySignature` hands to the verifier:
`JSON.stringify` of the spread copy of the response with its `signature` field deleted —
the response's own key order, NOT the canonicalized (key-sorted) serialization. -/
def verificationPayload (response : Json) : String :=
  stringifyJ (response.delete "signature")

/-- `StateResolver.verifySignature(response, signature)`. -/
def verifySignature (sr : SR) (response : Json) (signature : String) : Except SdkErr Unit :=
  match sr.verifier with
  | none => .ok ()
  | some v =>
    if v.verify (verificationPayload response) signature then .ok ()
    else .error (.signatureErr "Response signature verification failed")

/-- `StateResolver.normalizeValidationPayload(response)`. -/
def normalizeValidationPayload (response : Json) : Json :=
  if (response.field "data").truthy then
    let data := response.field "data"
    let p := (Json.obj []).objSet "valid" (Json.orElse (data.field "valid") (.bool false))
    if (data.field "license").truthy then
      let license := data.field "license"
      let p := p.objSet "status" (license.field "status").orNull
      let p := p.objSet "features" (Json.orElse (license.field "features") (.obj []))
      let p := p.objSet "metadata" (Json.orElse (license.field "metadata") (.obj []))
      let p := if (license.field "expires_at").truthy then
          p.objSet "valid_until" (dateSeconds (license.field "expires_at"))
        else p
      let p := if (license.field "activated_at").truthy then
          p.objSet "valid_from" (dateSeconds (license.field "activated_at"))
        else p
      if (license.field "hardware_id").truthy then
        p.objSet "context_binding" (.str (hashHex (license.field "hardware_id").toStr))
      else if (license.field "domain").truthy then
        p.objSet "context_binding" (.str (hashHex (license.field "domain").toStr))
      else p
    else p
  else
    let p := (Json.obj []).objSet "valid" (Json.orElse (response.field "valid") (.bool false))
    if (response.field "license").truthy then
      let license := response.field "license"
      let p := p.objSet "status" (license.field "status").orNull
      let p := p.objSet "features" (Json.orElse (license.field "features") (.obj []))
      let p := p.objSet "metadata" (Json.orElse (license.field "metadata") (.obj []))
      if (license.field "expires_at").truthy then
        p.objSet "valid_until" (dateSeconds (license.field "expires_at"))
      else p
    else p

/-- `StateResolver.resolveFromValidation(response, licenseKey)` at instant `now`: the
signature gate runs first (when the response carries a truthy `signature` and a verifier
is configured), and only afterwards is the payload normalized and the state built. -/
def resolveFromValidation (sr : SR) (now : Int) (response licenseKey : Json) :
    Except SdkErr LicenseState :=
  let hasSig := (response.field "signature").truthy && sr.verifier.isSome
  let sigVal := if hasSig then response.field "signature" else .null
  match (if hasSig then verifySignature sr response (response.field "signature").toStr
         else .ok ()) with
  | .error e => .error e
  | .ok _ =>
    let p₀ := normalizeValidationPayload response
    let p₁ := p₀.objSet "environment" sr.environment
    let p₂ := p₁.objSet "product_id" sr.productId
    let p₃ := p₂.objSet "issued_at" (Json.orElse (response.field "timestamp") (.num now))
    .ok { entitlementState := EntitlementState.build now p₃ sigVal, licenseKey := licenseKey }

/-- `StateResolver.createRestrictedState(reason, licenseKey)` at instant `now`. -/
def createRestrictedState (now : Int) (env pid : Json) (reason : String) (licenseKey : Json) :
    LicenseState :=
  let payload : Json := .obj [("valid", .bool false), ("status", .str "restricted"),
    ("metadata", .obj [("reason", .str reason)]), ("issued_at", .num now),
    ("environment", env), ("product_id", pid)]
  { entitlementState := EntitlementState.build now payload .null, licenseKey := licenseKey }

/-- `StateResolver.createGraceState(lastValidState, licenseKey)` at instant `now`. -/
def createGraceState (now : Int) (lastValidState licenseKey : Json) : LicenseState :=
  let payload := (lastValidState.objSet "revalidation_failed" (.bool true)).objSet
    "last_verified_at" (Json.orElse (lastValidState.field "last_verified_at") (.num now))
  let signature := (lastValidState.field "signature").orNull
  { entitlementState := EntitlementState.build now payload signature, licenseKey := licenseKey }

/-- The methods declared in the `EntitlementState` class body of
`entitlement-state.js` — the complete list. -/
def entitlementStateMethods : List String :=
  ["fromCache", "hasCapability", "getCapabilityValue", "isActive", "isInGrace",
   "allowsOperation", "isExpired", "needsRevalidation", "getState", "getCapabilities",
   "getValidityWindow", "getContextBinding", "verifyContextBinding", "getMetadata",
   "toObject", "validatePayload", "determineState", "extractCapabilities",
   "determineUpdateCapability", "determineTelemetryCapability",
   "determineDownloadCapability"]

/-- The call `cachedState.toArray()` performed by the validator's offline-grace branch:
a method call resolves against the class's method table; an absent method is a JS
`TypeError` (`cachedState.toArray is not a function`).  Were the method present it would
return the serialized field object (what `toObject` returns). -/
def callToArray (s : EntitlementState) : Except SdkErr Json :=
  if "toArray" ∈ entitlementStateMethods then .ok s.toObject
  else .error (.typeErr "cachedState.toArray is not a function")

def stateKeyFor (licenseKey : String) : String :=
  "entitlement:" ++ licenseKey ++ ":validation"

/-- `LicenseValidator.resolveLicenseState(licenseKey, options)` at instant `now`.

The outcome of the network validation attempt (`validateLicense`: HTTP POST /v1/verify
plus the response cache of the separate `CacheManager`) is abstracted as the `net`
argument.  Control flow from the source:
 1. throw `ValidationError` on a blank key;
 2. when caching is enabled, read the `StateStore`; a fresh hit (`!needsRevalidation()`)
    returns immediately; a `get` failure is swallowed (the catch body is empty);
 3. attempt network validation, resolve and persist on success;
 4. on a `NetworkError`, re-read the store; if a cached state `allowsOperation()`, call
    `cachedState.toArray()` and wrap the result in a grace state — any failure inside
    this branch is swallowed by the inner empty catch, after which the original error is
    rethrown; otherwise rethrow the original error. -/
def resolveLicenseState (now : Int) (cacheEnabled : Bool) (sr : SR) (st : SStore)
    (licenseKey : String) (net : Except SdkErr Json) :
    Except SdkErr LicenseState × SStore :=
  if licenseKey.data.all Char.isWhitespace then
    (.error (.validationErr "License key cannot be empty"), st)
  else
    let stateKey := stateKeyFor licenseKey
    let phase₁ : Option LicenseState × SStore :=
      if cacheEnabled then
        match SStore.get st stateKey now with
        | (.ok (some cs), st₁) =>
          if !(cs.needsRevalidation now 86400) then
            (some { entitlementState := cs, licenseKey := .str licenseKey }, st₁)
          else (none, st₁)
        | (.ok none, st₁) => (none, st₁)
        | (.error _, st₁) => (none, st₁)
      else (none, st)
    match phase₁ with
    | (some ls, st₁) => (.ok ls, st₁)
    | (none, st₁) =>
      match net with
      | .ok response =>
        match resolveFromValidation sr now response (.str licenseKey) with
        | .error e => (.error e, st₁)
        | .ok ls =>
          if cacheEnabled then
            (.ok ls, SStore.set st₁ stateKey ls.entitlementState none now)
          else (.ok ls, st₁)
      | .error e =>
        if e.isNetworkError then
          match SStore.get st₁ stateKey now with
          | (.ok (some cs), st₂) =>
            if cs.allowsOperation then
              match callToArray cs with
              | .ok fields => (.ok (createGraceState now fields (.str licenseKey)), st₂)
              | .error _ => (.error e, st₂)
            else (.error e, st₂)
          | (.ok none, st₂) => (.error e, st₂)
          | (.error _, st₂) => (.error e, st₂)
        else (.error e, st₁)

/-- `LicenseValidator.getLicenseState(licenseKey, options)`: delegate to
`resolveLicenseState`; convert any `LicenseError` into a restricted state carrying the
failure message; rethrow anything else. -/
def getLicenseState (now : Int) (cacheEnabled : Bool) (sr : SR) (st : SStore)
    (licenseKey : String) (net : Except SdkErr Json) :
    Except SdkErr LicenseState × SStore :=
  match resolveLicenseState now cacheEnabled sr st licenseKey net with
  | (.ok ls, st₁) => (.ok ls, st₁)
  | (.error e, st₁) =>
    if e.isLicenseError then
      (.ok (createRestrictedState now sr.environment sr.productId e.message (.str licenseKey)), st₁)
    else (.error e, st₁)

/-!
## Auxiliary lemmas about the map and object operations
-/

theorem mapDel_get (l : List (String × CachedEntry)) (k : String) :
    mapGet (mapDel l k) k = none := by
  induction l with
  | nil => rfl
  | cons p rest ih =>
    by_cases h : p.1 = k
    · simpa [mapDel, h] using ih
    · simpa [mapDel, mapGet, List.find?, h] using ih

theorem mapSet_get (l : List (String × CachedEntry)) (k : String) (v : CachedEntry) :
    mapGet (mapSet l k v) k = some v := by
  induction l with
  | nil => simp [mapSet, mapGet, List.find?]
  | cons p rest ih =>
    by_cases h : p.1 = k
    · simp [mapSet, h, mapGet, List.find?]
    · simpa [mapSet, h, mapGet, List.find?] using ih

theorem field_setPairs_self (l : List (String × Json)) (k : String) (v : Json) :
    (Json.obj (setPairs l k v)).field k = v := by
  induction l with
  | nil => simp [setPairs, Json.field, List.find?]
  | cons p rest ih =>
    by_cases h : p.1 = k
    · simp [setPairs, h, Json.field, List.find?]
    · simpa [setPairs, h, Json.field, List.find?] using ih

theorem field_setPairs_ne (l : List (String × Json)) (k k' : String) (v : Json)
    (hne : k' ≠ k) : (Json.obj (setPairs l k v)).field k' = (Json.obj l).field k' := by
  induction l with
  | nil => simp [setPairs, Json.field, List.find?, Ne.symm hne]
  | cons p rest ih =>
    obtain ⟨pk, pv⟩ := p
    by_cases h : pk = k
    · subst h
      simp [setPairs, Json.field, List.find?, Ne.symm hne]
    · by_cases h' : pk = k'
      · simp [setPairs, h, Json.field, List.find?, h', hne]
      · simpa [setPairs, h, Json.field, List.find?, h'] using ih

theorem foldl_objSet_obj (m : List (String × Json)) :
    ∀ l, ∃ l', m.foldl (fun acc p => acc.objSet p.1 p.2) (Json.obj l) = Json.obj l' := by
  induction m with
  | nil => intro l; exact ⟨l, rfl⟩
  | cons q rest ih => intro l; simpa [Json.objSet] using ih (setPairs l q.1 q.2)

theorem assignAll_obj (l : List (String × Json)) (src : Json) :
    ∃ l', assignAll (Json.obj l) src = Json.obj l' := by
  cases src with
  | obj m => exact foldl_objSet_obj m l
  | null => exact ⟨l, rfl⟩
  | bool b => exact ⟨l, rfl⟩
  | num n => exact ⟨l, rfl⟩
  | str s => exact ⟨l, rfl⟩
  | arr a => exact ⟨l, rfl⟩

theorem fromCache_ok_build {now : Int} {cd : Json} {ver : Option Verifier}
    {es : EntitlementState} (h : EntitlementState.fromCache now cd ver = .ok es) :
    es = EntitlementState.build now cd (cd.field "signature") := by
  unfold EntitlementState.fromCache at h
  split at h
  · exact absurd h (by simp)
  · split at h
    · injection h with h'
      exact h'.symm
    · exact absurd h (by simp)

/-!
## Claim theorems
-/

/-- C7: for every payload whose `status` lowercases to revoked, suspended or cancelled,
`determineState` returns INVALID regardless of the validity window, the `valid` flag or
any other field — this branch is evaluated first. -/
theorem c7_blocked_status_invalid (now : Int) (p : Json) (s : String)
    (hs : p.field "status" = .str s)
    (hmem : lowerStr s ∈ ["revoked", "suspended", "cancelled"]) :
    determineState now p = .INVALID := by
  obtain ⟨sd⟩ := s
  have hne : sd.isEmpty = false := by
    cases sd with
    | nil => exact absurd hmem (by decide)
    | cons a rest => rfl
  have hblocked : statusIsBlocked p = true := by
    simp [statusIsBlocked, hs, Json.truthy, Json.toStr, hne, hmem]
  simp [determineState, hblocked]

/-- C7 witness: `status = "REVOKED"` forces INVALID even with `valid: true` and a live
validity window. -/
theorem c7_blocked_status_invalid_wit :
    determineState 1000 (.obj [("status", .str "REVOKED"), ("valid", .bool true),
      ("valid_from", .num 10), ("valid_until", .num 100000)]) = .INVALID :=
  c7_blocked_status_invalid 1000 _ "REVOKED" rfl (by decide)

/-- C6 counterexample: `valid_until = 0` (the epoch) is a set, past expiry timestamp at
`now = 8 days`, so the claim requires RESTRICTED — but the code's truthiness guard
(`payload.valid_until && ...`) skips the expiry branch for the falsy value 0 and the
payload falls through to the fail-open default ACTIVE. -/
theorem c6_expiry_cex :
    determineState (8 * 86400) (.obj [("valid_until", .num 0)]) = .ACTIVE := by decide

/-- C6 amended: for a payload with a truthy (nonzero) `valid_until` in the past — and
neither a blocking status nor an applicable `valid_from` precondition — `determineState`
returns GRACE within 7 days of expiry and RESTRICTED from 7 days on; a `valid_until` one
day in the future is not classified by the expiry branch (e.g. with `valid: true` the
state is ACTIVE). -/
theorem c6_expiry_classification (now vu : Int) (p : Json)
    (hvu : p.field "valid_until" = .num vu) (hnz : vu ≠ 0)
    (hstatus : statusIsBlocked p = false)
    (hfrom : beforeValidFrom now p = false)
    (hexp : now > vu) :
    determineState now p = (if now - vu < 7 * 86400 then .GRACE else .RESTRICTED)
    ∧ (now + 86400 ≠ 0 →
        determineState now
          (.obj [("valid", .bool true), ("valid_until", .num (now + 86400))]) = .ACTIVE) := by
  constructor
  · have hafter : afterValidUntil now p = true := by
      simp [afterValidUntil, hvu, Json.truthy, Json.toNum, hnz, hexp]
    simp [determineState, hstatus, hfrom, hafter, hvu, Json.toNum]
  · intro hnz'
    have hafter : afterValidUntil now
        (.obj [("valid", .bool true), ("valid_until", .num (now + 86400))]) = false := by
      simp [afterValidUntil, Json.field, List.find?, Json.truthy, Json.toNum]
    simp [determineState, statusIsBlocked, beforeValidFrom, hafter, Json.field,
      List.find?, Json.truthy, Json.isTrue]

/-- C6 witness: `valid_until = now - 8 days` gives RESTRICTED (and the not-yet-expired
conjunct at a concrete instant). -/
theorem c6_expiry_classification_wit :
    determineState (9 * 86400) (.obj [("valid_until", .num 86400)]) =
      (if (9 * 86400 : Int) - 86400 < 7 * 86400 then EState.GRACE else .RESTRICTED)
    ∧ ((9 * 86400 : Int) + 86400 ≠ 0 →
        determineState (9 * 86400)
          (.obj [("valid", .bool true), ("valid_until", .num (9 * 86400 + 86400))]) = .ACTIVE) :=
  c6_expiry_classification (9 * 86400) 86400 _ rfl (by decide) (by decide) (by decide) (by decide)

/-- C9 counterexample: a payload with `valid === true` but a present out-of-set
`license.status` ("expired") gets `downloads = false` — the membership test short-circuits
and `valid` is never consulted, contradicting the claimed disjunction. -/
theorem c9_downloads_cex :
    determineDownloadCapability
      (.obj [("valid", .bool true), ("license", .obj [("status", .str "expired")])]) = false
    ∧ (Json.obj [("valid", .bool true),
        ("license", .obj [("status", .str "expired")])]).field "valid" = .bool true := by
  constructor
  · decide
  · rfl

/-- C9 amended: the derived `downloads` capability entry produced by
`extractCapabilities` equals `determineDownloadCapability`, which is the status-set
membership test whenever a truthy `license.status` is present (ignoring `valid`), and the
`valid === true` test only when it is not. -/
theorem c9_downloads_capability (p : Json) :
    (extractCapabilities p).field "downloads" = .bool (determineDownloadCapability p)
    ∧ determineDownloadCapability p =
        (if ((p.field "license").truthy && ((p.field "license").field "status").truthy) then
          decide (lowerStr ((p.field "license").field "status").toStr ∈
            ["active", "assigned", "available"])
        else (p.field "valid").isTrue) := by
  constructor
  · simp only [extractCapabilities]
    obtain ⟨l₁, hl₁⟩ : ∃ l',
        (if ((p.field "features").truthy && (p.field "features").isObjLike) = true then
          assignAll (Json.obj []) (p.field "features")
        else Json.obj []) = Json.obj l' := by
      split
      · exact assignAll_obj [] (p.field "features")
      · exact ⟨[], rfl⟩
    rw [hl₁]
    obtain ⟨l₂, hl₂⟩ : ∃ l',
        (if ((p.field "license").truthy && ((p.field "license").field "features").truthy) = true
          then assignAll (Json.obj l₁) ((p.field "license").field "features")
        else Json.obj l₁) = Json.obj l' := by
      split
      · exact assignAll_obj l₁ _
      · exact ⟨l₁, rfl⟩
    rw [hl₂]
    cases h₆ : ((p.field "license").truthy && (p.field "license").hasField "activations_limit") with
    | false =>
      cases h₇ : ((p.field "license").truthy && (p.field "license").hasField "activations_count") with
      | false =>
        simp only [h₆, h₇, Bool.false_eq_true, if_false, Json.objSet]
        rw [field_setPairs_self]
      | true =>
        simp only [h₆, h₇, Bool.false_eq_true, if_false, if_true, Json.objSet]
        rw [field_setPairs_ne _ "current_activations" "downloads" _ (by decide),
          field_setPairs_self]
    | true =>
      cases h₇ : ((p.field "license").truthy && (p.field "license").hasField "activations_count") with
      | false =>
        simp only [h₆, h₇, Bool.false_eq_true, if_false, if_true, Json.objSet]
        rw [field_setPairs_ne _ "max_activations" "downloads" _ (by decide),
          field_setPairs_self]
      | true =>
        simp only [h₆, h₇, if_true, Json.objSet]
        rw [field_setPairs_ne _ "current_activations" "downloads" _ (by decide),
          field_setPairs_ne _ "max_activations" "downloads" _ (by decide),
          field_setPairs_self]
  · rfl

/-- C4: every cached entry successfully read by `StateStore.get` comes back with
`lastVerifiedAt` equal to the instant of the read — the constructor stamps
`Date.now() / 1000`, ignoring the persisted `last_verified_at` — so at that instant
`needsRevalidation(interval)` is false for every positive interval, no matter how old the
persisted verification timestamp is. -/
theorem c4_cache_read_fresh (st : SStore) (key : String) (now : Int)
    (es : EntitlementState) (st' : SStore)
    (h : SStore.get st key now = (.ok (some es), st')) :
    es.lastVerifiedAt = now ∧
      ∀ interval : Int, 0 < interval → es.needsRevalidation now interval = false := by
  cases hm : mapGet st.store key with
  | none => simp [SStore.get, hm] at h
  | some cached =>
    simp only [SStore.get, hm] at h
    split at h
    · simp at h
    · cases hfc : EntitlementState.fromCache now cached.state st.verifier with
      | ok es' =>
        rw [hfc] at h
        simp only [Prod.mk.injEq, Except.ok.injEq, Option.some.injEq] at h
        have hes : es = EntitlementState.build now cached.state
            (cached.state.field "signature") := by
          rw [← h.1]
          exact fromCache_ok_build hfc
        constructor
        · rw [hes]; rfl
        · intro interval hpos
          rw [hes]
          simp only [EntitlementState.needsRevalidation, EntitlementState.build, sub_self,
            decide_eq_false_iff_not]
          omega
      | error e => simp [hfc] at h

/-- C4 witness: a concrete store entry persisted with an ancient `last_verified_at`
still reads back fresh. -/
theorem c4_cache_read_fresh_wit :
    (EntitlementState.build 50
        (.obj [("signature", .str "sig"), ("last_verified_at", .num (-100000))])
        (.str "sig")).lastVerifiedAt = 50 ∧
      ∀ interval : Int, 0 < interval →
        (EntitlementState.build 50
          (.obj [("signature", .str "sig"), ("last_verified_at", .num (-100000))])
          (.str "sig")).needsRevalidation 50 interval = false :=
  c4_cache_read_fresh
    ⟨[("k", ⟨.obj [("signature", .str "sig"), ("last_verified_at", .num (-100000))], 100⟩)],
      none, 300⟩ "k" 50 _ _ rfl

/-- C5: a stored, unexpired entry whose embedded signature fails verification against the
configured verifier makes the first `StateStore.get` throw a SignatureFailure and remove
the entry; a second `get` for the same key (at any instant) is a clean miss. -/
theorem c5_bad_signature_evicts (st : SStore) (key : String) (now now₂ : Int)
    (c : CachedEntry) (v : Verifier)
    (hget : mapGet st.store key = some c)
    (hexp : ¬ c.expiresAt < now)
    (hsig : (c.state.field "signature").truthy = true)
    (hver : st.verifier = some v)
    (hfail : v.verify (stringifyJ (c.state.delete "signature"))
      ((c.state.field "signature").toStr) = false) :
    SStore.get st key now =
      (.error (.signatureErr "Cached state signature verification failed"),
        { st with store := mapDel st.store key })
    ∧ SStore.get { st with store := mapDel st.store key } key now₂ =
        (.ok none, { st with store := mapDel st.store key }) := by
  have hfc : EntitlementState.fromCache now c.state st.verifier =
      .error (.signatureErr "Cached state signature verification failed") := by
    rw [hver]
    simp [EntitlementState.fromCache, hsig, hfail]
  refine ⟨?_, ?_⟩
  · simp [SStore.get, hget, hexp, hfc]
  · simp [SStore.get, mapDel_get]

/-- C5 witness: a concrete entry under a rejecting verifier. -/
theorem c5_bad_signature_evicts_wit :
    SStore.get ⟨[("k", ⟨.obj [("signature", .str "s")], 100⟩)], some ⟨fun _ _ => false⟩, 300⟩
        "k" 50 =
      (.error (.signatureErr "Cached state signature verification failed"),
        ⟨mapDel [("k", ⟨.obj [("signature", .str "s")], 100⟩)] "k",
          some ⟨fun _ _ => false⟩, 300⟩)
    ∧ SStore.get ⟨mapDel [("k", ⟨.obj [("signature", .str "s")], 100⟩)] "k",
        some ⟨fun _ _ => false⟩, 300⟩ "k" 77 =
      (.ok none, ⟨mapDel [("k", ⟨.obj [("signature", .str "s")], 100⟩)] "k",
        some ⟨fun _ _ => false⟩, 300⟩) :=
  c5_bad_signature_evicts _ "k" 50 77 _ _ rfl (by decide) (by decide) rfl rfl

/-- C10: a synthesized restricted state carries `signature = null`; persisting it via
`StateStore.set` therefore stores an entry without an embedded signature, and every
non-expired `StateStore.get` for that key throws the missing-signature SignatureFailure
and evicts the entry — whatever the verifier configuration, including none.  The unsigned
state is never returned from the cache. -/
theorem c10_unsigned_state_never_served (st₀ : SStore) (key reason : String)
    (env pid lk : Json) (ttl : Option Int) (now₀ now₁ now₂ : Int)
    (hfresh : ¬ now₁ + ttlValue st₀ ttl < now₂) :
    ((createRestrictedState now₀ env pid reason lk).entitlementState.toObject.field
        "signature" = .null)
    ∧ SStore.get
        (SStore.set st₀ key (createRestrictedState now₀ env pid reason lk).entitlementState
          ttl now₁) key now₂ =
      (.error (.signatureErr "Cached state missing signature"),
        ⟨mapDel (mapSet st₀.store key
            ⟨(createRestrictedState now₀ env pid reason lk).entitlementState.toObject,
              now₁ + ttlValue st₀ ttl⟩) key, st₀.verifier, st₀.defaultTtl⟩)
    ∧ mapGet (mapDel (mapSet st₀.store key
        ⟨(createRestrictedState now₀ env pid reason lk).entitlementState.toObject,
          now₁ + ttlValue st₀ ttl⟩) key) key = none := by
  refine ⟨rfl, ?_, ?_⟩
  · have hget : mapGet (mapSet st₀.store key
        ⟨(createRestrictedState now₀ env pid reason lk).entitlementState.toObject,
          now₁ + ttlValue st₀ ttl⟩) key =
        some ⟨(createRestrictedState now₀ env pid reason lk).entitlementState.toObject,
          now₁ + ttlValue st₀ ttl⟩ := mapSet_get _ _ _
    have hnull : (createRestrictedState now₀ env pid reason lk).entitlementState.toObject.field
        "signature" = .null := rfl
    have hfc : EntitlementState.fromCache now₂
        (createRestrictedState now₀ env pid reason lk).entitlementState.toObject
        st₀.verifier = .error (.signatureErr "Cached state missing signature") := by
      simp [EntitlementState.fromCache, hnull, Json.truthy]
    simp [SStore.get, SStore.set, hget, hfresh, hfc]
  · exact mapDel_get _ _

/-- C10 witness: concrete instantiation with no verifier configured. -/
theorem c10_unsigned_state_never_served_wit :
    ((createRestrictedState 10 Json.null Json.null "net down" (.str "K")).entitlementState.toObject.field
        "signature" = .null)
    ∧ SStore.get
        (SStore.set ⟨[], none, 300⟩ "k"
          (createRestrictedState 10 Json.null Json.null "net down" (.str "K")).entitlementState
          none 20) "k" 100 =
      (.error (.signatureErr "Cached state missing signature"),
        ⟨mapDel (mapSet [] "k"
            ⟨(createRestrictedState 10 Json.null Json.null "net down" (.str "K")).entitlementState.toObject,
              20 + ttlValue ⟨[], none, 300⟩ none⟩) "k", none, 300⟩)
    ∧ mapGet (mapDel (mapSet [] "k"
        ⟨(createRestrictedState 10 Json.null Json.null "net down" (.str "K")).entitlementState.toObject,
          20 + ttlValue ⟨[], none, 300⟩ none⟩) "k") "k" = none :=
  c10_unsigned_state_never_served ⟨[], none, 300⟩ "k" "net down" .null .null (.str "K")
    none 10 20 100 (by decide)

/-- C2 (behavior of the code, refuting the claimed RESTRICTED classification): whenever
the throwing resolution path fails with any error of the SDK `LicenseError` hierarchy
(ValidationError, SignatureError, NetworkError, plain LicenseError from the API, ...),
`getLicenseState` does return — not throw — the synthesized state carrying the failure
reason in its metadata; but that state's `state` field is ACTIVE, because
`determineState` maps the synthesized payload (`valid: false`, `status: "restricted"`)
to its fail-open default rather than to RESTRICTED. -/
theorem c2_getLicenseState_failure (now : Int) (cacheEnabled : Bool) (sr : SR)
    (st : SStore) (licenseKey : String) (net : Except SdkErr Json)
    (e : SdkErr) (st₁ : SStore)
    (hres : resolveLicenseState now cacheEnabled sr st licenseKey net = (.error e, st₁))
    (hlic : e.isLicenseError = true) :
    getLicenseState now cacheEnabled sr st licenseKey net =
      (.ok (createRestrictedState now sr.environment sr.productId e.message
        (.str licenseKey)), st₁)
    ∧ (createRestrictedState now sr.environment sr.productId e.message
        (.str licenseKey)).entitlementState.state = .ACTIVE
    ∧ (createRestrictedState now sr.environment sr.productId e.message
        (.str licenseKey)).entitlementState.metadata.field "reason" = .str e.message := by
  refine ⟨?_, ?_, rfl⟩
  · simp [getLicenseState, hres, hlic]
  · rfl

/-- C2 witness: a blank license key raises the ValidationError inside the resolution
path; the non-throwing wrapper converts it — into an ACTIVE-classified state. -/
theorem c2_getLicenseState_failure_wit :
    getLicenseState 100 false ⟨none, .null, .null⟩ ⟨[], none, 300⟩ "" (.error (.networkErr "x")) =
      (.ok (createRestrictedState 100 Json.null Json.null "License key cannot be empty"
        (.str "")), ⟨[], none, 300⟩)
    ∧ (createRestrictedState 100 Json.null Json.null "License key cannot be empty"
        (.str "")).entitlementState.state = .ACTIVE
    ∧ (createRestrictedState 100 Json.null Json.null "License key cannot be empty"
        (.str "")).entitlementState.metadata.field "reason" =
        .str "License key cannot be empty" :=
  c2_getLicenseState_failure 100 false ⟨none, .null, .null⟩ ⟨[], none, 300⟩ ""
    (.error (.networkErr "x")) (.validationErr "License key cannot be empty")
    ⟨[], none, 300⟩ rfl rfl

/-- C1 (behavior of the code, refuting the claimed GRACE result): with a cached,
validly-signed entry for the key whose reconstructed state `allowsOperation()`, a network
validation failure makes `resolveLicenseState` rethrow the NetworkFailure instead of
returning a GRACE state: the offline-grace branch calls `cachedState.toArray()`, a method
absent from the `EntitlementState` class, and the resulting TypeError is swallowed by the
inner catch before the original network error is rethrown. -/
theorem c1_network_failure_rethrows (now : Int) (sr : SR) (st : SStore)
    (licenseKey msg : String) (c : CachedEntry) (es : EntitlementState)
    (hkey : licenseKey.data.all Char.isWhitespace = false)
    (hget : mapGet st.store (stateKeyFor licenseKey) = some c)
    (hexp : ¬ c.expiresAt < now)
    (hfc : EntitlementState.fromCache now c.state st.verifier = .ok es)
    (hallow : es.allowsOperation = true) :
    callToArray es = .error (.typeErr "cachedState.toArray is not a function")
    ∧ resolveLicenseState now false sr st licenseKey (.error (.networkErr msg)) =
        (.error (.networkErr msg), st) := by
  refine ⟨by simp [callToArray, entitlementStateMethods], ?_⟩
  simp [resolveLicenseState, hkey, SStore.get, hget, hexp, hfc, hallow,
    SdkErr.isNetworkError, callToArray, entitlementStateMethods]

/-- C1 witness: a concrete signed ACTIVE cached snapshot and a simulated network
failure. -/
theorem c1_network_failure_rethrows_wit :
    callToArray (EntitlementState.build 50 (.obj [("valid", .bool true), ("signature", .str "s")])
        ((Json.obj [("valid", .bool true), ("signature", .str "s")]).field "signature")) =
      .error (.typeErr "cachedState.toArray is not a function")
    ∧ resolveLicenseState 50 false ⟨none, .null, .null⟩
        ⟨[(stateKeyFor "KEY", ⟨.obj [("valid", .bool true), ("signature", .str "s")], 100⟩)],
          none, 300⟩ "KEY" (.error (.networkErr "timeout")) =
        (.error (.networkErr "timeout"),
          ⟨[(stateKeyFor "KEY", ⟨.obj [("valid", .bool true), ("signature", .str "s")], 100⟩)],
            none, 300⟩) :=
  c1_network_failure_rethrows 50 ⟨none, .null, .null⟩
    ⟨[(stateKeyFor "KEY", ⟨.obj [("valid", .bool true), ("signature", .str "s")], 100⟩)],
      none, 300⟩ "KEY" "timeout" _ _ (by decide) rfl (by decide) rfl (by decide)

/-- C3 counterexample: for the response `{z:1, a:2, signature:"sig"}`, the byte string
`StateResolver.verifySignature` hands to the verifier is the insertion-order
`JSON.stringify` serialization, which differs from the canonical (key-sorted) JSON of the
response minus its signature; a verifier that accepts exactly the canonical bytes — as
the claim asserts is what gets verified — therefore rejects the call, and the resolver
raises a SignatureFailure. -/
theorem c3_canonical_bytes_cex :
    (verificationPayload (.obj [("z", .num 1), ("a", .num 2), ("signature", .str "sig")]) ≠
      canonicalizeJson ((Json.obj [("z", .num 1), ("a", .num 2),
        ("signature", .str "sig")]).delete "signature"))
    ∧ verifySignature
        ⟨some ⟨fun d _ => decide (d = canonicalizeJson ((Json.obj [("z", .num 1),
            ("a", .num 2), ("signature", .str "sig")]).delete "signature"))⟩, .null, .null⟩
        (.obj [("z", .num 1), ("a", .num 2), ("signature", .str "sig")]) "sig" =
      .error (.signatureErr "Response signature verification failed") := by
  constructor
  · decide
  · rfl

/-- C3 amended: when the response carries a truthy `signature` and a verifier is
configured, the byte string handed to the verifier is `JSON.stringify` of the response
minus the `signature` field in the response's own key order (it equals the canonical JSON
only when the keys are already sorted); a mismatch is raised by `resolveFromValidation`
as a fatal SignatureFailure before any payload field is normalized, and only on success
is a state built. -/
theorem c3_signature_gate (v : Verifier) (env pid : Json) (response lk : Json) (now : Int)
    (hsig : (response.field "signature").truthy = true) :
    (v.verify (verificationPayload response) ((response.field "signature").toStr) = false →
      resolveFromValidation ⟨some v, env, pid⟩ now response lk =
        .error (.signatureErr "Response signature verification failed"))
    ∧ (v.verify (verificationPayload response) ((response.field "signature").toStr) = true →
      ∃ ls, resolveFromValidation ⟨some v, env, pid⟩ now response lk = .ok ls ∧
        ls.entitlementState.signature = response.field "signature") := by
  constructor
  · intro hfail
    simp [resolveFromValidation, hsig, verifySignature, hfail]
  · intro hok
    refine ⟨⟨EntitlementState.build now
      ((((normalizeValidationPayload response).objSet "environment" env).objSet
        "product_id" pid).objSet "issued_at"
        (Json.orElse (response.field "timestamp") (.num now)))
      (response.field "signature"), lk⟩, ?_, rfl⟩
    simp [resolveFromValidation, hsig, verifySignature, hok]

/-- C3 amended witness: a rejecting verifier on a concrete signed response. -/
theorem c3_signature_gate_wit :
    resolveFromValidation ⟨some ⟨fun _ _ => false⟩, .null, .null⟩ 5
        (.obj [("valid", .bool true), ("signature", .str "sig")]) (.str "K") =
      .error (.signatureErr "Response signature verification failed") :=
  (c3_signature_gate ⟨fun _ _ => false⟩ .null .null
    (.obj [("valid", .bool true), ("signature", .str "sig")]) (.str "K") 5 (by decide)).1 rfl

/-- C8: for every pair of JSON values equal up to object-key ordering at any nesting
depth (`JEquiv` matches array elements positionally, so array order is preserved) —
with the standing JS guarantee that no object holds duplicate keys — `canonicalizeJson`
produces byte-identical output. -/
theorem c8_canonicalizeJson_key_order (a b : Json) (heq : JEquiv a b)
    (hnk : nkJ a = true) : canonicalizeJson a = canonicalizeJson b := by
  unfold canonicalizeJson
  rw [sortKeysRecursive_eq_of_equiv (sizeOf a) a b le_rfl heq hnk]

/-- C8 witness: `canonicalize({z:1,a:2}) == canonicalize({a:2,z:1})`. -/
theorem c8_canonicalizeJson_key_order_wit :
    canonicalizeJson (.obj [("z", .num 1), ("a", .num 2)]) =
      canonicalizeJson (.obj [("a", .num 2), ("z", .num 1)]) :=
  c8_canonicalizeJson_key_order (.obj [("z", .num 1), ("a", .num 2)])
    (.obj [("a", .num 2), ("z", .num 1)])
    (JEquiv.obj (List.Perm.swap ("a", Json.num 2) ("z", Json.num 1) [])
      (List.Forall₂.cons (PairEq.mk "a" (.num 2) (.num 2) (JEquiv.num 2))
        (List.Forall₂.cons (PairEq.mk "z" (.num 1) (.num 1) (JEquiv.num 1))
          List.Forall₂.nil)))
    (by decide)
